import Mathlib

/-!
BookRESTAPI: the Book Service over an abstract Database Gateway.

A shallow embedding of `internal/services/book_service.go` and
`internal/models/book.go`.

* Go `int` / `int64` values are `Int`; the service does no arithmetic on them,
  and the conversion `int64(x)` of an `int` never changes the value.
* A Go pointer that may be `nil` is an `Option`; dereferencing `nil` is the
  outcome `Outcome.panicked`.
* `UpdateBook` hands the gateway the pointer `book` and reads the record
  through it after the call, so the gateway's `UpdateBook` also yields the
  record as the call leaves it.
* The record `SelectBookByID` yields is taken as the service's own: what the
  service writes to `book.Author` and `book.Title` reaches the gateway only
  through `UpdateBook`.
* A Go `error` is `Option Error`, `none` being `nil`.
* The gateway `bs.db` is a record of state-passing functions over an arbitrary
  state type `σ`; every call the service makes on it is appended to a call log,
  so that "no gateway call" and "exactly these gateway calls" can be stated.
* `time.Now()` is the parameter `now`.
-/

namespace BookRESTAPI

/-- Go `time.Time`, as an integer instant; `0` is the zero time. -/
abbrev Time := Int

/-- Go `error` values that can reach a caller of the service: the six sentinel
variables of `book_service.go` (lines 12-25), pairwise distinct because each is
a separate `errors.New`, and any other error value, which only the gateway can
produce. -/
inductive Error where
  | ErrInvalidID
  | ErrInvalidCreatedByID
  | ErrInvalidAuthor
  | ErrInvalidTitle
  | ErrInvalidAuthorOrTitle
  | ErrBookNotFound
  | other (msg : String)
  deriving DecidableEq, Repr

namespace models

/-- Storage entity `models.Book` (`internal/models/book.go`). -/
structure Book where
  ID : Int
  CreatedBy : Int
  CreatedAt : Time
  Author : String
  Title : String
  deriving DecidableEq, Repr

end models

namespace dtos

/-- Modelled from the spec: the type `dtos.BookDTO` (package `internal/dtos` is
not among the sources). Section 3: identifier (wide integer), author, title,
creation timestamp; these are also the only fields the service assigns. -/
structure BookDTO where
  ID : Int
  Author : String
  Title : String
  CreatedAt : Time
  deriving DecidableEq, Repr

/-- Modelled from the spec: the type `dtos.BookCreateDTO` (package
`internal/dtos` is not among the sources). Section 3: author and title only. -/
structure BookCreateDTO where
  Author : String
  Title : String
  deriving DecidableEq, Repr

end dtos

namespace database

open models

/-- Modelled from the spec: the interface `database.Database` (package
`internal/database` is not among the sources). Section 6 lists its five
operations; the Go result shapes are those the service destructures:
`SelectBookByID` gives a nilable `*models.Book` together with an `error` (all
four combinations are representable), `InsertBook` an `int` together with an
`error`. `UpdateBook` receives the pointer `*models.Book` the service goes on
reading after the call, so next to its `error` it yields the record as the call
leaves it: the record it was given, unless the gateway writes through the
pointer. Every operation may change the gateway state `σ`. -/
structure Database (σ : Type) where
  SelectAllBooks : σ → (List Book × Option Error) × σ
  SelectBookByID : Int → σ → (Option Book × Option Error) × σ
  InsertBook : Book → σ → (Int × Option Error) × σ
  UpdateBook : Int → Book → σ → (Option Error × Book) × σ
  DeleteBook : Int → σ → Option Error × σ

/-- One invocation of a gateway operation, with its arguments. -/
inductive Call where
  | SelectAllBooks
  | SelectBookByID (id : Int)
  | InsertBook (book : Book)
  | UpdateBook (id : Int) (book : Book)
  | DeleteBook (id : Int)
  deriving DecidableEq, Repr

/-- A call that writes to storage. -/
def Call.isWrite : Call → Bool
  | .InsertBook _ => true
  | .UpdateBook _ _ => true
  | .DeleteBook _ => true
  | _ => false

end database

namespace services

open models dtos database

/-- How a call of a service method ends: it returns the Go result tuple `ρ`, or
the goroutine panics on a nil pointer dereference. -/
inductive Outcome (ρ : Type) where
  | returned (r : ρ)
  | panicked
  deriving DecidableEq, Repr

/-- A finished call of a service method: how it ended, the gateway state it
left, and the gateway calls it made, in order. -/
structure Run (σ ρ : Type) where
  outcome : Outcome ρ
  state : σ
  calls : List Call

/-- Go `int64(x)` for `x` of type `int`: value preserving. -/
def int64 (x : Int) : Int := x

/-- Method `validateID` (line 165): `id > 0`. -/
def validateID (id : Int) : Bool := decide (id > 0)

/-- Method `validateAuthor` (line 170): `author != ""`. -/
def validateAuthor (author : String) : Bool := author != ""

/-- Method `validateTitle` (line 175): `title != ""`. -/
def validateTitle (title : String) : Bool := title != ""

/-- Method `GetBooks` (lines 47-64). The `range` loop appends one DTO per book. -/
def GetBooks {σ : Type} (db : Database σ) (s : σ) :
    Run σ (Option (List BookDTO) × Option Error) :=
  match db.SelectAllBooks s with
  | ((books, err), s1) =>
    if err ≠ none then
      ⟨.returned (none, err), s1, [Call.SelectAllBooks]⟩
    else
      let booksDTO : List BookDTO :=
        books.foldl
          (fun acc book =>
            acc ++ [{ ID := int64 book.ID, Author := book.Author, Title := book.Title,
                      CreatedAt := book.CreatedAt }])
          []
      ⟨.returned (some booksDTO, none), s1, [Call.SelectAllBooks]⟩

/-- Method `GetBook` (lines 67-83). -/
def GetBook {σ : Type} (db : Database σ) (id : Int) (s : σ) :
    Run σ (Option BookDTO × Option Error) :=
  if !validateID id then
    ⟨.returned (none, some Error.ErrInvalidID), s, []⟩
  else
    match db.SelectBookByID id s with
    | ((book, err), s1) =>
      if err ≠ none ∨ book = none then
        ⟨.returned (none, some Error.ErrBookNotFound), s1, [Call.SelectBookByID id]⟩
      else
        match book with
        | none => ⟨.panicked, s1, [Call.SelectBookByID id]⟩
        | some book =>
          ⟨.returned
              (some { ID := int64 book.ID, Author := book.Author, Title := book.Title,
                      CreatedAt := book.CreatedAt }, none),
            s1, [Call.SelectBookByID id]⟩

/-- Method `AddBook` (lines 86-118). After the re-read only `err` is tested, so
`book.ID` dereferences whatever pointer the gateway returned. -/
def AddBook {σ : Type} (db : Database σ) (now : Time) (createdByID : Int)
    (dto : Option BookCreateDTO) (s : σ) : Run σ (Option BookDTO × Option Error) :=
  if !validateID createdByID then
    ⟨.returned (none, some Error.ErrInvalidCreatedByID), s, []⟩
  else
    match dto with
    | none => ⟨.panicked, s, []⟩
    | some dto =>
      if !validateAuthor dto.Author then
        ⟨.returned (none, some Error.ErrInvalidAuthor), s, []⟩
      else if !validateTitle dto.Title then
        ⟨.returned (none, some Error.ErrInvalidTitle), s, []⟩
      else
        let newBook : Book :=
          { ID := 0, CreatedBy := createdByID, CreatedAt := now, Author := dto.Author,
            Title := dto.Title }
        match db.InsertBook newBook s with
        | ((id, err), s1) =>
          if err ≠ none then
            ⟨.returned (none, err), s1, [Call.InsertBook newBook]⟩
          else
            match db.SelectBookByID id s1 with
            | ((book, err), s2) =>
              if err ≠ none then
                ⟨.returned (none, err), s2, [Call.InsertBook newBook, Call.SelectBookByID id]⟩
              else
                match book with
                | none =>
                  ⟨.panicked, s2, [Call.InsertBook newBook, Call.SelectBookByID id]⟩
                | some book =>
                  ⟨.returned
                      (some { ID := int64 book.ID, CreatedAt := book.CreatedAt,
                              Author := book.Author, Title := book.Title }, none),
                    s2, [Call.InsertBook newBook, Call.SelectBookByID id]⟩

/-- Method `UpdateBook` (lines 121-149). The record read from the gateway gets
the new author and title and is handed whole, by pointer, to the gateway's
`UpdateBook`; the DTO is built afterwards from the record as that call left it
(`bookAfter`). -/
def UpdateBook {σ : Type} (db : Database σ) (id : Int) (dto : Option BookDTO) (s : σ) :
    Run σ (Option BookDTO × Option Error) :=
  if !validateID id then
    ⟨.returned (none, some Error.ErrInvalidID), s, []⟩
  else
    match dto with
    | none => ⟨.panicked, s, []⟩
    | some dto =>
      if !validateAuthor dto.Author then
        ⟨.returned (none, some Error.ErrInvalidAuthor), s, []⟩
      else if !validateTitle dto.Title then
        ⟨.returned (none, some Error.ErrInvalidTitle), s, []⟩
      else
        match db.SelectBookByID id s with
        | ((book, err), s1) =>
          if err ≠ none ∨ book = none then
            ⟨.returned (none, some Error.ErrBookNotFound), s1, [Call.SelectBookByID id]⟩
          else
            match book with
            | none => ⟨.panicked, s1, [Call.SelectBookByID id]⟩
            | some book =>
              let book : Book := { book with Author := dto.Author }
              let book : Book := { book with Title := dto.Title }
              match db.UpdateBook id book s1 with
              | ((err, bookAfter), s2) =>
                if err ≠ none then
                  ⟨.returned (none, err), s2, [Call.SelectBookByID id, Call.UpdateBook id book]⟩
                else
                  ⟨.returned
                      (some { ID := int64 bookAfter.ID, Author := bookAfter.Author,
                              Title := bookAfter.Title, CreatedAt := bookAfter.CreatedAt }, none),
                    s2, [Call.SelectBookByID id, Call.UpdateBook id book]⟩

/-- Method `DeleteBook` (lines 152-162). -/
def DeleteBook {σ : Type} (db : Database σ) (id : Int) (s : σ) : Run σ (Option Error) :=
  if !validateID id then
    ⟨.returned (some Error.ErrInvalidID), s, []⟩
  else
    match db.SelectBookByID id s with
    | ((book, err), s1) =>
      if err ≠ none ∨ book = none then
        ⟨.returned (some Error.ErrBookNotFound), s1, [Call.SelectBookByID id]⟩
      else
        match db.DeleteBook id s1 with
        | (err, s2) => ⟨.returned err, s2, [Call.SelectBookByID id, Call.DeleteBook id]⟩

/-- The field-wise conversion of a stored book into its transfer object:
identifier, author, title and creation timestamp, nothing else. -/
def bookToDTO (b : Book) : BookDTO :=
  { ID := b.ID, Author := b.Author, Title := b.Title, CreatedAt := b.CreatedAt }

end services

namespace memdb

open models database

/-- Modelled from the spec: the in-memory test adapter of the gateway that
section 9 calls for (no adapter is among the sources). It holds the stored
books, newest first, and the last identifier it handed out. -/
structure MemState where
  books : List Book
  lastID : Nat
  deriving DecidableEq, Repr

/-- The in-memory gateway with nothing stored. -/
def empty : MemState := { books := [], lastID := 0 }

/-- The record stored under `id`, if any. -/
def lookup (s : MemState) (id : Int) : Option Book :=
  s.books.find? (fun b => b.ID == id)

/-- Modelled from the spec: an in-memory `database.Database`. `InsertBook`
stores the record under the next identifier, which is positive, and returns it;
`SelectBookByID` returns what is stored, or absent with no error; `UpdateBook`
replaces and `DeleteBook` removes the record stored under the identifier; no
operation fails, and `UpdateBook` leaves the record it is handed as it is. -/
def memDB : Database MemState where
  SelectAllBooks := fun s => ((s.books.reverse, none), s)
  SelectBookByID := fun id s => ((lookup s id, none), s)
  InsertBook := fun b s =>
    let id : Int := (s.lastID : Int) + 1
    ((id, none), { books := { b with ID := id } :: s.books, lastID := s.lastID + 1 })
  UpdateBook := fun id b s =>
    ((none, b),
      { s with books := s.books.map (fun x => if x.ID == id then { b with ID := id } else x) })
  DeleteBook := fun id s =>
    (none, { s with books := s.books.filter (fun x => !(x.ID == id)) })

/-- Modelled from the spec: an in-memory `database.Database` seen by one client
while another client deletes concurrently (section 5: no transaction spans the
two gateway calls of an operation). `InsertBook` succeeds and returns the new
identifier, but the row is gone again before the next call, so that
`SelectBookByID` answers absent with no error, as section 6 allows. -/
def vanishingDB : Database MemState :=
  { memDB with
    InsertBook := fun _ s => (((s.lastID : Int) + 1, none), { s with lastID := s.lastID + 1 }) }

/-- Errors injected into the in-memory gateway, one optional error per
operation. -/
structure Faults where
  selectAll : Option Error
  selectByID : Option Error
  insert : Option Error
  update : Option Error
  delete : Option Error
  deriving DecidableEq, Repr

/-- No injected error. -/
def Faults.none : Faults := ⟨Option.none, Option.none, Option.none, Option.none, Option.none⟩

/-- Modelled from the spec: the in-memory `database.Database` with injected
failures. An operation with an injected error returns that error with zero
values and leaves the store alone; the others behave as `memDB`. -/
def faultyDB (f : Faults) : Database MemState where
  SelectAllBooks := fun s =>
    match f.selectAll with
    | some e => (([], some e), s)
    | Option.none => memDB.SelectAllBooks s
  SelectBookByID := fun id s =>
    match f.selectByID with
    | some e => ((Option.none, some e), s)
    | Option.none => memDB.SelectBookByID id s
  InsertBook := fun b s =>
    match f.insert with
    | some e => ((0, some e), s)
    | Option.none => memDB.InsertBook b s
  UpdateBook := fun id b s =>
    match f.update with
    | some e => ((some e, b), s)
    | Option.none => memDB.UpdateBook id b s
  DeleteBook := fun id s =>
    match f.delete with
    | some e => (some e, s)
    | Option.none => memDB.DeleteBook id s

end memdb

namespace services

open models dtos database

/-- A gateway is lawful with respect to an abstraction `stored` of its state
when `InsertBook` succeeds with a positive identifier under which the record is
then stored, and `SelectBookByID` returns what is stored, without error and
without changing what is stored. -/
structure Lawful {σ : Type} (db : Database σ) (stored : σ → Int → Option Book) : Prop where
  insert_ok : ∀ (b : Book) (s : σ),
    (db.InsertBook b s).1.2 = none ∧ 0 < (db.InsertBook b s).1.1 ∧
      stored (db.InsertBook b s).2 (db.InsertBook b s).1.1
        = some { b with ID := (db.InsertBook b s).1.1 }
  select_ok : ∀ (id : Int) (s : σ),
    (db.SelectBookByID id s).1 = (stored s id, none) ∧
      stored (db.SelectBookByID id s).2 = stored s

end services

namespace memdb

open models database

/-- Modelled from the spec: an in-memory `database.Database` whose storage
assigns the creation timestamp itself ("storage-side defaulting of the
timestamp", section 4.2): `InsertBook` stores the record with `CreatedAt`
replaced by the storage clock `clock`; otherwise it is `memDB`. -/
def stampingDB (clock : Time) : Database MemState :=
  { memDB with
    InsertBook := fun b s => memDB.InsertBook { b with CreatedAt := clock } s }

end memdb

namespace services

open models dtos database

/-- The gateway `db` behind a recorder: each operation first appends the call
it receives, with its arguments, to a log kept next to the gateway state, and
then does what `db` does. The log is what the gateway really received. -/
def traced {σ : Type} (db : Database σ) : Database (σ × List Call) where
  SelectAllBooks := fun t =>
    ((db.SelectAllBooks t.1).1, ((db.SelectAllBooks t.1).2, t.2 ++ [Call.SelectAllBooks]))
  SelectBookByID := fun id t =>
    ((db.SelectBookByID id t.1).1,
      ((db.SelectBookByID id t.1).2, t.2 ++ [Call.SelectBookByID id]))
  InsertBook := fun b t =>
    ((db.InsertBook b t.1).1, ((db.InsertBook b t.1).2, t.2 ++ [Call.InsertBook b]))
  UpdateBook := fun id b t =>
    ((db.UpdateBook id b t.1).1, ((db.UpdateBook id b t.1).2, t.2 ++ [Call.UpdateBook id b]))
  DeleteBook := fun id t =>
    ((db.DeleteBook id t.1).1, ((db.DeleteBook id t.1).2, t.2 ++ [Call.DeleteBook id]))

/-- One call of a Book Service method, with its arguments (`now` is the value
`time.Now()` takes during an `AddBook`). -/
inductive Op where
  | GetBooks
  | GetBook (id : Int)
  | AddBook (now : Time) (createdByID : Int) (dto : Option BookCreateDTO)
  | UpdateBook (id : Int) (dto : Option BookDTO)
  | DeleteBook (id : Int)
  deriving Repr

/-- The DTOs handed to the caller by a method that returns one `*dtos.BookDTO`. -/
def returnedDTO : Outcome (Option BookDTO × Option Error) → List BookDTO
  | .returned (some d, _) => [d]
  | _ => []

/-- The DTOs handed to the caller by `GetBooks`. -/
def returnedDTOs : Outcome (Option (List BookDTO) × Option Error) → List BookDTO
  | .returned (some ds, _) => ds
  | _ => []

/-- Runs one service call on the gateway state `s`: the gateway state it leaves
and the DTOs it returned. -/
def exec {σ : Type} (db : Database σ) : Op → σ → σ × List BookDTO
  | .GetBooks, s => ((GetBooks db s).state, returnedDTOs (GetBooks db s).outcome)
  | .GetBook id, s => ((GetBook db id s).state, returnedDTO (GetBook db id s).outcome)
  | .AddBook now createdByID dto, s =>
    ((AddBook db now createdByID dto s).state,
      returnedDTO (AddBook db now createdByID dto s).outcome)
  | .UpdateBook id dto, s =>
    ((UpdateBook db id dto s).state, returnedDTO (UpdateBook db id dto s).outcome)
  | .DeleteBook id, s => ((DeleteBook db id s).state, [])

/-- Runs a sequence of service calls one after the other: the final gateway
state and all DTOs returned on the way. -/
def execAll {σ : Type} (db : Database σ) : List Op → σ → σ × List BookDTO
  | [], s => (s, [])
  | op :: ops, s =>
    ((execAll db ops (exec db op s).1).1, (exec db op s).2 ++ (execAll db ops (exec db op s).1).2)

/-- The data-model invariant of section 3 for one stored book: non-empty author
and title, positive creator identifier and positive identifier. -/
def validBook (b : Book) : Prop :=
  b.Author ≠ "" ∧ b.Title ≠ "" ∧ 0 < b.CreatedBy ∧ 0 < b.ID

end services

namespace crypto

/-- Modelled from the spec: the errors of package `pkg/crypto` (file `crypto.go`
is not among the sources; only its test is). Section 7: `ErrInvalidCredentials`
is the sole failure kind of password verification; `engine` stands for an error
of the hashing engine that `HashPassword` passes on. -/
inductive Error where
  | ErrInvalidCredentials
  | engine (msg : String)
  deriving DecidableEq, Repr

/-- What the hashing engine does when asked to hash a plaintext longer than its
maximum input length: section 4.1 has it hashed all the same (`truncate`: from
its first characters); the library the test drives, `golang.org/x/crypto/bcrypt`,
refuses such a plaintext in its later versions (`refuse`). The sources do not
show which one the repository runs with, so both are covered. -/
inductive LongInput where
  | truncate
  | refuse
  deriving DecidableEq, Repr

/-- The first `n` characters of `s`. -/
def truncate (n : Nat) (s : String) : String := ⟨s.data.take n⟩

/-- Modelled from the spec: the hashing engine under `HashPassword` and
`CheckPassword` (the test drives `golang.org/x/crypto/bcrypt`, an external
library). Section 4.1: a salted transformation of deterministic length
(`digest_length`) with a maximum input length, beyond which the plaintext is not
read (`digest_limit`; the test's long password names the limit, 72), and such
that verification succeeds only for the plaintext that produced the hash, which
within the input limit means that no two plaintexts share a digest under one
salt (`digest_injective`). Lengths are counted in characters. -/
structure Engine where
  maxInput : Nat
  digestLen : Nat
  onLongInput : LongInput
  digest : String → String → String
  digestLen_pos : 0 < digestLen
  digest_length : ∀ salt plaintext : String, (digest salt plaintext).length = digestLen
  digest_limit : ∀ salt plaintext : String,
    digest salt plaintext = digest salt (truncate maxInput plaintext)
  digest_injective : ∀ salt p q : String, p.length ≤ maxInput → q.length ≤ maxInput →
    digest salt p = digest salt q → p = q

/-- Modelled from the spec: `HashPassword` of `pkg/crypto/crypto.go` (not among
the sources). Section 4.1: the salt, drawn afresh by every call, is the
parameter `salt`; the hash is the salt followed by the digest of the plaintext
under that salt, so the salt is embedded in the hash. A plaintext within the
engine's input limit never makes it fail; a longer one makes it fail when the
engine refuses long input (other failures of the engine, such as resource
exhaustion, are left out). -/
def HashPassword (E : Engine) (salt plaintext : String) : String × Option Error :=
  if E.maxInput < plaintext.length ∧ E.onLongInput = LongInput.refuse then
    ("", some (Error.engine "password too long"))
  else
    (salt ++ E.digest salt plaintext, none)

/-- Modelled from the spec: `CheckPassword` of `pkg/crypto/crypto.go` (not among
the sources). Section 4.1: it takes the salt embedded in the stored hash,
recomputes the digest of the plaintext under it and compares with the stored
digest; a hash too short to hold a digest and a digest mismatch both give
`ErrInvalidCredentials`. -/
def CheckPassword (E : Engine) (plaintext hash : String) : Option Error :=
  if hash.length < E.digestLen then
    some Error.ErrInvalidCredentials
  else
    let salt : String := ⟨hash.data.take (hash.length - E.digestLen)⟩
    let digest : String := ⟨hash.data.drop (hash.length - E.digestLen)⟩
    if E.digest salt plaintext = digest then none else some Error.ErrInvalidCredentials

/-- The first `n` characters of `l`, padded with dots to `n` characters. -/
def fit (n : Nat) (l : List Char) : List Char :=
  l.take n ++ List.replicate (n - l.length) '.'

/-- The number `k ≤ n` in unary, on `n` characters. -/
def unary (n k : Nat) : List Char :=
  List.replicate k '1' ++ List.replicate (n - k) '0'

/-- A digest of 152 characters that meets the laws of `Engine` with input limit
72: the first 8 characters of the salt, the first 72 characters of the
plaintext, both padded, and the length of what was read of the plaintext. It is
a stand-in that shows the laws can be met together; it is not one-way, which is
not a property of the results of a function. -/
def paddedDigest (salt plaintext : String) : String :=
  ⟨fit 8 salt.data ++ (fit 72 plaintext.data ++ unary 72 (min 72 plaintext.data.length))⟩

/-- Modelled from the spec: a hashing engine with input limit 72 and digest
`paddedDigest`; `onLongInput` says whether it hashes or refuses a longer
plaintext. -/
def paddedEngine (onLongInput : LongInput) : Engine where
  maxInput := 72
  digestLen := 152
  onLongInput := onLongInput
  digest := paddedDigest
  digestLen_pos := by decide
  digest_length := by
    intro salt p
    show (fit 8 salt.data ++ (fit 72 p.data ++ unary 72 (min 72 p.data.length))).length = 152
    simp only [fit, unary, List.length_append, List.length_take, List.length_replicate]
    omega
  digest_limit := by
    intro salt p
    apply String.ext
    show fit 8 salt.data ++ (fit 72 p.data ++ unary 72 (min 72 p.data.length))
      = fit 8 salt.data
        ++ (fit 72 (p.data.take 72) ++ unary 72 (min 72 (p.data.take 72).length))
    have h1 : fit 72 (p.data.take 72) = fit 72 p.data := by
      simp only [fit, List.take_take, List.length_take, min_self]
      congr 2
      omega
    have h2 : min 72 (p.data.take 72).length = min 72 p.data.length := by
      simp only [List.length_take]
      omega
    rw [h1, h2]
  digest_injective := by
    intro salt p q hp hq h
    have hp1 : p.data.length ≤ 72 := hp
    have hq1 : q.data.length ≤ 72 := hq
    have hfit : ∀ l : List Char, (fit 72 l).length = 72 := by
      intro l
      simp only [fit, List.length_append, List.length_take, List.length_replicate]
      omega
    have hcount : ∀ k : Nat, (unary 72 k).count '1' = k := by
      intro k
      simp [unary, List.count_replicate]
    have h0 : fit 8 salt.data ++ (fit 72 p.data ++ unary 72 (min 72 p.data.length))
        = fit 8 salt.data ++ (fit 72 q.data ++ unary 72 (min 72 q.data.length)) :=
      congrArg String.data h
    have h2 := List.append_inj (List.append_cancel_left h0) (by rw [hfit, hfit])
    have hk : min 72 p.data.length = min 72 q.data.length := by
      have := congrArg (List.count '1') h2.2
      rwa [hcount, hcount] at this
    have hlen : p.data.length = q.data.length := by omega
    have h3 : p.data ++ List.replicate (72 - p.data.length) '.'
        = q.data ++ List.replicate (72 - q.data.length) '.' := by
      have := h2.1
      simp only [fit] at this
      rwa [List.take_of_length_le hp1, List.take_of_length_le hq1] at this
    exact String.ext (List.append_inj h3 hlen).1

/-- The plaintext `fullLength` continued by one more character. -/
def overLength : String := ⟨List.replicate 72 'a' ++ ['b']⟩

end crypto

/-! ## Theorems -/

namespace services

open models dtos database memdb

theorem validateID_false_of_nonpos {id : Int} (h : id ≤ 0) : validateID id = false := by
  simp [validateID, h]

theorem validateID_true_of_pos {id : Int} (h : 0 < id) : validateID id = true := by
  simp [validateID, h]

theorem validateAuthor_empty : validateAuthor "" = false := by
  decide

theorem validateAuthor_true_of_ne {a : String} (h : a ≠ "") : validateAuthor a = true := by
  simp [validateAuthor, h]

theorem validateTitle_empty : validateTitle "" = false := by
  decide

theorem validateTitle_true_of_ne {t : String} (h : t ≠ "") : validateTitle t = true := by
  simp [validateTitle, h]

/-- C1: for every `id ≤ 0`, every gateway, every gateway state and every dto
(nil, empty author, empty title, anything): `GetBook`, `UpdateBook` and
`DeleteBook` return `ErrInvalidID`, `AddBook` with that creator id returns
`ErrInvalidCreatedByID`, the call log is empty and the gateway state is
untouched; neither error is `ErrInvalidTitle`. -/
theorem C1_nonpositive_id_rejected_before_gateway {σ : Type} (db : Database σ) (s : σ)
    (now : Time) (id : Int) (dto : Option BookDTO) (cdto : Option BookCreateDTO)
    (h : id ≤ 0) :
    GetBook db id s = ⟨.returned (none, some Error.ErrInvalidID), s, []⟩ ∧
    UpdateBook db id dto s = ⟨.returned (none, some Error.ErrInvalidID), s, []⟩ ∧
    DeleteBook db id s = ⟨.returned (some Error.ErrInvalidID), s, []⟩ ∧
    AddBook db now id cdto s = ⟨.returned (none, some Error.ErrInvalidCreatedByID), s, []⟩ ∧
    Error.ErrInvalidID ≠ Error.ErrInvalidTitle ∧
    Error.ErrInvalidCreatedByID ≠ Error.ErrInvalidTitle := by
  have hv := validateID_false_of_nonpos h
  refine ⟨?_, ?_, ?_, ?_, by decide, by decide⟩
  · simp [GetBook, hv]
  · simp [UpdateBook, hv]
  · simp [DeleteBook, hv]
  · simp [AddBook, hv]

/-- C1 at `id = 0` with an empty-title dto over the in-memory gateway. -/
theorem C1_nonpositive_id_rejected_before_gateway_witness :
    (0 : Int) ≤ 0 ∧
    UpdateBook memDB 0 (some ⟨5, "Lem", "", 9⟩) memdb.empty
      = ⟨.returned (none, some Error.ErrInvalidID), memdb.empty, []⟩ ∧
    AddBook memDB 7 0 (some ⟨"Lem", ""⟩) memdb.empty
      = ⟨.returned (none, some Error.ErrInvalidCreatedByID), memdb.empty, []⟩ :=
  have t := C1_nonpositive_id_rejected_before_gateway memDB memdb.empty 7 0
    (some ⟨5, "Lem", "", 9⟩) (some ⟨"Lem", ""⟩) (by decide)
  ⟨by decide, t.2.1, t.2.2.2.1⟩

/-- C2: for every positive id, every gateway and every non-nil dto: `AddBook`
and `UpdateBook` return `ErrInvalidAuthor` when the author is empty (whatever
the title) and `ErrInvalidTitle` when the author is non-empty and the title is
empty; the call log is empty and the gateway state is untouched. -/
theorem C2_empty_author_or_title_rejected_before_gateway {σ : Type} (db : Database σ) (s : σ)
    (now : Time) (id : Int) (dto : BookDTO) (cdto : BookCreateDTO) (h : 0 < id) :
    (cdto.Author = "" →
      AddBook db now id (some cdto) s
        = ⟨.returned (none, some Error.ErrInvalidAuthor), s, []⟩) ∧
    (cdto.Author ≠ "" → cdto.Title = "" →
      AddBook db now id (some cdto) s
        = ⟨.returned (none, some Error.ErrInvalidTitle), s, []⟩) ∧
    (dto.Author = "" →
      UpdateBook db id (some dto) s
        = ⟨.returned (none, some Error.ErrInvalidAuthor), s, []⟩) ∧
    (dto.Author ≠ "" → dto.Title = "" →
      UpdateBook db id (some dto) s
        = ⟨.returned (none, some Error.ErrInvalidTitle), s, []⟩) := by
  have hv := validateID_true_of_pos h
  refine ⟨?_, ?_, ?_, ?_⟩
  · intro ha
    simp [AddBook, hv, ha, validateAuthor_empty]
  · intro ha ht
    simp [AddBook, hv, validateAuthor_true_of_ne ha, ht, validateTitle_empty]
  · intro ha
    simp [UpdateBook, hv, ha, validateAuthor_empty]
  · intro ha ht
    simp [UpdateBook, hv, validateAuthor_true_of_ne ha, ht, validateTitle_empty]

/-- C2 at `id = 1` over the in-memory gateway: an add with empty author and
empty title, an update with an author and an empty title. -/
theorem C2_empty_author_or_title_rejected_before_gateway_witness :
    (0 : Int) < 1 ∧
    AddBook memDB 7 1 (some ⟨"", ""⟩) memdb.empty
      = ⟨.returned (none, some Error.ErrInvalidAuthor), memdb.empty, []⟩ ∧
    UpdateBook memDB 1 (some ⟨1, "Lem", "", 9⟩) memdb.empty
      = ⟨.returned (none, some Error.ErrInvalidTitle), memdb.empty, []⟩ :=
  have t := C2_empty_author_or_title_rejected_before_gateway memDB memdb.empty 7 1
    ⟨1, "Lem", "", 9⟩ ⟨"", ""⟩ (by decide)
  ⟨by decide, t.1 rfl, t.2.2.2 (by decide) rfl⟩

/-- C3: for every positive id and every non-nil dto with non-empty author and
title: if `SelectBookByID id` returns a nil record or a non-nil error, then
`GetBook`, `UpdateBook` and `DeleteBook` return `ErrBookNotFound`, which is not
`ErrInvalidID`, and the only gateway call made is that `SelectBookByID id`: the
gateway state is the one the read left, whatever the gateway write would have
answered. -/
theorem C3_missing_record_is_book_not_found {σ : Type} (db : Database σ) (s s1 : σ)
    (id : Int) (dto : BookDTO) (book : Option Book) (err : Option Error)
    (hid : 0 < id) (ha : dto.Author ≠ "") (ht : dto.Title ≠ "")
    (hsel : db.SelectBookByID id s = ((book, err), s1))
    (hmiss : book = none ∨ err ≠ none) :
    GetBook db id s
      = ⟨.returned (none, some Error.ErrBookNotFound), s1, [Call.SelectBookByID id]⟩ ∧
    UpdateBook db id (some dto) s
      = ⟨.returned (none, some Error.ErrBookNotFound), s1, [Call.SelectBookByID id]⟩ ∧
    DeleteBook db id s
      = ⟨.returned (some Error.ErrBookNotFound), s1, [Call.SelectBookByID id]⟩ ∧
    Error.ErrBookNotFound ≠ Error.ErrInvalidID := by
  have hv := validateID_true_of_pos hid
  have hc : err ≠ none ∨ book = none := hmiss.symm
  refine ⟨?_, ?_, ?_, by decide⟩
  · simp [GetBook, hv, hsel, hc]
  · simp [UpdateBook, hv, validateAuthor_true_of_ne ha, validateTitle_true_of_ne ht, hsel, hc]
  · simp [DeleteBook, hv, hsel, hc]

/-- C3 at `id = 3` over the empty in-memory gateway, whose `UpdateBook` and
`DeleteBook` would have reported success. -/
theorem C3_missing_record_is_book_not_found_witness :
    (memDB.UpdateBook 3 ⟨3, 1, 9, "Lem", "Solaris"⟩ memdb.empty).1.1 = none ∧
    (memDB.DeleteBook 3 memdb.empty).1 = none ∧
    UpdateBook memDB 3 (some ⟨3, "Lem", "Solaris", 9⟩) memdb.empty
      = ⟨.returned (none, some Error.ErrBookNotFound), memdb.empty, [Call.SelectBookByID 3]⟩ ∧
    DeleteBook memDB 3 memdb.empty
      = ⟨.returned (some Error.ErrBookNotFound), memdb.empty, [Call.SelectBookByID 3]⟩ :=
  have t := C3_missing_record_is_book_not_found memDB memdb.empty memdb.empty 3
    ⟨3, "Lem", "Solaris", 9⟩ none none (by decide) (by decide) (by decide) rfl (Or.inl rfl)
  ⟨rfl, rfl, t.2.1, t.2.2.1⟩

/-- C4: `AddBook` with valid inputs over a gateway whose `InsertBook` succeeds
and whose re-read answers absent with no error does not return: it dereferences
the nil record and panics, after both gateway calls were made. -/
theorem C4_AddBook_panics_on_absent_reread :
    (vanishingDB.InsertBook ⟨0, 1, 7, "Lem", "Solaris"⟩ memdb.empty).1 = (1, none) ∧
    (vanishingDB.SelectBookByID 1
        (vanishingDB.InsertBook ⟨0, 1, 7, "Lem", "Solaris"⟩ memdb.empty).2).1 = (none, none) ∧
    (AddBook vanishingDB 7 1 (some ⟨"Lem", "Solaris"⟩) memdb.empty).outcome = Outcome.panicked ∧
    (AddBook vanishingDB 7 1 (some ⟨"Lem", "Solaris"⟩) memdb.empty).calls
      = [Call.InsertBook ⟨0, 1, 7, "Lem", "Solaris"⟩, Call.SelectBookByID 1] := by
  refine ⟨?_, ?_, ?_, ?_⟩ <;> decide

/-- The other four methods return on every gateway and every input with a
non-nil dto: they test the record for nil before they dereference it. -/
theorem other_methods_never_panic {σ : Type} (db : Database σ) (s : σ) (id : Int)
    (dto : BookDTO) :
    (GetBooks db s).outcome ≠ Outcome.panicked ∧
    (GetBook db id s).outcome ≠ Outcome.panicked ∧
    (UpdateBook db id (some dto) s).outcome ≠ Outcome.panicked ∧
    (DeleteBook db id s).outcome ≠ Outcome.panicked := by
  refine ⟨?_, ?_, ?_, ?_⟩
  · unfold GetBooks
    rcases db.SelectAllBooks s with ⟨⟨books, err⟩, s1⟩
    cases err <;> simp
  · unfold GetBook
    rcases db.SelectBookByID id s with ⟨⟨book, err⟩, s1⟩
    cases book <;> cases err <;> cases validateID id <;> simp
  · unfold UpdateBook
    rcases db.SelectBookByID id s with ⟨⟨book, err⟩, s1⟩
    cases book with
    | none => cases err <;> simp only [] <;> split_ifs <;> simp at *
    | some b =>
      cases err <;> simp only [] <;> split_ifs <;> simp at *
  · unfold DeleteBook
    rcases db.SelectBookByID id s with ⟨⟨book, err⟩, s1⟩
    cases book <;> cases err <;> cases validateID id <;> simp

theorem foldl_append_singleton_eq_map {α β : Type} (f : α → β) (l : List α) (acc : List β) :
    l.foldl (fun acc x => acc ++ [f x]) acc = acc ++ l.map f := by
  induction l generalizing acc with
  | nil => simp
  | cons x xs ih => simp [ih]

/-- C5: `GetBook` succeeds (returns a DTO and a nil error) exactly when `id > 0`
and `SelectBookByID id` returns a non-nil record with a nil error; the DTO then
carries that record's ID (same value), Author, Title and CreatedAt, and does not
depend on the record's creator identifier. -/
theorem C5_GetBook_success_iff_and_fields {σ : Type} (db : Database σ) (s : σ) (id : Int) :
    ((∃ d, (GetBook db id s).outcome = Outcome.returned (some d, none)) ↔
      (0 < id ∧ ∃ b, (db.SelectBookByID id s).1 = (some b, none))) ∧
    (∀ d, (GetBook db id s).outcome = Outcome.returned (some d, none) →
      ∃ b, (db.SelectBookByID id s).1 = (some b, none) ∧
        d.ID = b.ID ∧ d.Author = b.Author ∧ d.Title = b.Title ∧ d.CreatedAt = b.CreatedAt ∧
        ∀ c : Int, d = bookToDTO { b with CreatedBy := c }) ∧
    (∀ b, 0 < id → (db.SelectBookByID id s).1 = (some b, none) →
      (GetBook db id s).outcome
        = Outcome.returned (some ⟨b.ID, b.Author, b.Title, b.CreatedAt⟩, none)) := by
  have key : ∀ b, 0 < id → (db.SelectBookByID id s).1 = (some b, none) →
      (GetBook db id s).outcome
        = Outcome.returned (some ⟨b.ID, b.Author, b.Title, b.CreatedAt⟩, none) := by
    intro b hid hsel
    rcases hdb : db.SelectBookByID id s with ⟨⟨book, err⟩, s1⟩
    rw [hdb] at hsel
    simp only [Prod.mk.injEq] at hsel
    obtain ⟨rfl, rfl⟩ := hsel
    simp [GetBook, validateID_true_of_pos hid, hdb, int64]
  have inv : ∀ d, (GetBook db id s).outcome = Outcome.returned (some d, none) →
      0 < id ∧ ∃ b, (db.SelectBookByID id s).1 = (some b, none) ∧
        d = ⟨b.ID, b.Author, b.Title, b.CreatedAt⟩ := by
    intro d hd
    by_cases hid : 0 < id
    · refine ⟨hid, ?_⟩
      rcases hdb : db.SelectBookByID id s with ⟨⟨book, err⟩, s1⟩
      cases book with
      | none =>
        cases err <;> simp [GetBook, validateID_true_of_pos hid, hdb] at hd
      | some b =>
        cases err with
        | some e => simp [GetBook, validateID_true_of_pos hid, hdb] at hd
        | none =>
          refine ⟨b, rfl, ?_⟩
          simp [GetBook, validateID_true_of_pos hid, hdb, int64] at hd
          exact hd.symm
    · have hv := validateID_false_of_nonpos (not_lt.mp hid)
      simp [GetBook, hv] at hd
  refine ⟨⟨?_, ?_⟩, ?_, key⟩
  · rintro ⟨d, hd⟩
    obtain ⟨hid, b, hb, _⟩ := inv d hd
    exact ⟨hid, b, hb⟩
  · rintro ⟨hid, b, hb⟩
    exact ⟨_, key b hid hb⟩
  · intro d hd
    obtain ⟨_, b, hb, rfl⟩ := inv d hd
    exact ⟨b, hb, rfl, rfl, rfl, rfl, fun _ => rfl⟩

/-- C6: when `SelectAllBooks` returns `books` with a nil error, `GetBooks`
returns, with a nil error and after that single gateway call, the list of the
field-wise conversions of `books` in the same order: same length, the i-th DTO
is the conversion of the i-th book, and an empty list gives an empty (non-nil)
list. -/
theorem C6_GetBooks_maps_in_order {σ : Type} (db : Database σ) (s s1 : σ) (books : List Book)
    (hsel : db.SelectAllBooks s = ((books, none), s1)) :
    ∃ ds : List BookDTO,
      GetBooks db s = ⟨.returned (some ds, none), s1, [Call.SelectAllBooks]⟩ ∧
      ds = books.map (fun b => ⟨b.ID, b.Author, b.Title, b.CreatedAt⟩) ∧
      ds.length = books.length ∧
      (∀ (i : Nat) (h : i < books.length),
        ds[i]? = some ⟨(books.get ⟨i, h⟩).ID, (books.get ⟨i, h⟩).Author,
          (books.get ⟨i, h⟩).Title, (books.get ⟨i, h⟩).CreatedAt⟩) ∧
      (books = [] → ds = []) := by
  refine ⟨books.map (fun b => ⟨b.ID, b.Author, b.Title, b.CreatedAt⟩), ?_, rfl, ?_, ?_, ?_⟩
  · simp only [GetBooks, hsel]
    have := foldl_append_singleton_eq_map
      (fun b : Book => (⟨int64 b.ID, b.Author, b.Title, b.CreatedAt⟩ : BookDTO)) books []
    simp only [List.nil_append, int64] at this
    simp [this, int64]
  · simp
  · intro i h
    simp [List.getElem?_map, List.getElem?_eq_getElem h]
  · rintro rfl
    rfl

/-- C6 over the in-memory gateway holding two books: the result lists them in
the order the gateway returned them. -/
theorem C6_GetBooks_maps_in_order_witness :
    memDB.SelectAllBooks ⟨[⟨2, 1, 8, "Herbert", "Dune"⟩, ⟨1, 1, 7, "Lem", "Solaris"⟩], 2⟩
      = (([⟨1, 1, 7, "Lem", "Solaris"⟩, ⟨2, 1, 8, "Herbert", "Dune"⟩], none),
          ⟨[⟨2, 1, 8, "Herbert", "Dune"⟩, ⟨1, 1, 7, "Lem", "Solaris"⟩], 2⟩) ∧
    (GetBooks memDB ⟨[⟨2, 1, 8, "Herbert", "Dune"⟩, ⟨1, 1, 7, "Lem", "Solaris"⟩], 2⟩).outcome
      = .returned (some [⟨1, "Lem", "Solaris", 7⟩, ⟨2, "Herbert", "Dune", 8⟩], none) := by
  obtain ⟨ds, h1, h2, _⟩ := C6_GetBooks_maps_in_order memDB
    ⟨[⟨2, 1, 8, "Herbert", "Dune"⟩, ⟨1, 1, 7, "Lem", "Solaris"⟩], 2⟩
    ⟨[⟨2, 1, 8, "Herbert", "Dune"⟩, ⟨1, 1, 7, "Lem", "Solaris"⟩], 2⟩
    [⟨1, 1, 7, "Lem", "Solaris"⟩, ⟨2, 1, 8, "Herbert", "Dune"⟩] rfl
  refine ⟨rfl, ?_⟩
  rw [h1, h2]
  rfl

theorem traced_GetBooks {σ : Type} (db : Database σ) (s : σ) (log : List Call) :
    GetBooks (traced db) (s, log)
      = ⟨(GetBooks db s).outcome, ((GetBooks db s).state, log ++ (GetBooks db s).calls),
          (GetBooks db s).calls⟩ := by
  rcases hsel : db.SelectAllBooks s with ⟨⟨books, err⟩, s1⟩
  cases err <;> simp [GetBooks, traced, hsel]

theorem traced_GetBook {σ : Type} (db : Database σ) (id : Int) (s : σ) (log : List Call) :
    GetBook (traced db) id (s, log)
      = ⟨(GetBook db id s).outcome, ((GetBook db id s).state, log ++ (GetBook db id s).calls),
          (GetBook db id s).calls⟩ := by
  cases hv : validateID id with
  | false => simp [GetBook, hv]
  | true =>
    rcases hsel : db.SelectBookByID id s with ⟨⟨bk, e⟩, s1⟩
    cases bk <;> cases e <;> simp [GetBook, traced, hv, hsel]

theorem traced_AddBook {σ : Type} (db : Database σ) (now : Time) (c : Int)
    (dto : Option BookCreateDTO) (s : σ) (log : List Call) :
    AddBook (traced db) now c dto (s, log)
      = ⟨(AddBook db now c dto s).outcome,
          ((AddBook db now c dto s).state, log ++ (AddBook db now c dto s).calls),
          (AddBook db now c dto s).calls⟩ := by
  cases hv : validateID c with
  | false => simp [AddBook, hv]
  | true =>
    cases dto with
    | none => simp [AddBook, hv]
    | some d =>
      cases hva : validateAuthor d.Author with
      | false => simp [AddBook, hv, hva]
      | true =>
        cases hvt : validateTitle d.Title with
        | false => simp [AddBook, hv, hva, hvt]
        | true =>
          rcases hins : db.InsertBook ⟨0, c, now, d.Author, d.Title⟩ s with ⟨⟨nid, e⟩, s1⟩
          cases e with
          | some e => simp [AddBook, traced, hv, hva, hvt, hins]
          | none =>
            rcases hsel : db.SelectBookByID nid s1 with ⟨⟨bk, e1⟩, s2⟩
            cases bk <;> cases e1 <;> simp [AddBook, traced, hv, hva, hvt, hins, hsel]

theorem traced_UpdateBook {σ : Type} (db : Database σ) (id : Int) (dto : Option BookDTO)
    (s : σ) (log : List Call) :
    UpdateBook (traced db) id dto (s, log)
      = ⟨(UpdateBook db id dto s).outcome,
          ((UpdateBook db id dto s).state, log ++ (UpdateBook db id dto s).calls),
          (UpdateBook db id dto s).calls⟩ := by
  cases hv : validateID id with
  | false => simp [UpdateBook, hv]
  | true =>
    cases dto with
    | none => simp [UpdateBook, hv]
    | some d =>
      cases hva : validateAuthor d.Author with
      | false => simp [UpdateBook, hv, hva]
      | true =>
        cases hvt : validateTitle d.Title with
        | false => simp [UpdateBook, hv, hva, hvt]
        | true =>
          rcases hsel : db.SelectBookByID id s with ⟨⟨bk, e⟩, s1⟩
          cases e with
          | some e => simp [UpdateBook, traced, hv, hva, hvt, hsel]
          | none =>
            cases bk with
            | none => simp [UpdateBook, traced, hv, hva, hvt, hsel]
            | some b =>
              rcases hupd : db.UpdateBook id { b with Author := d.Author, Title := d.Title } s1
                with ⟨⟨e2, after⟩, s2⟩
              cases e2 <;> simp [UpdateBook, traced, hv, hva, hvt, hsel, hupd]

theorem traced_DeleteBook {σ : Type} (db : Database σ) (id : Int) (s : σ) (log : List Call) :
    DeleteBook (traced db) id (s, log)
      = ⟨(DeleteBook db id s).outcome,
          ((DeleteBook db id s).state, log ++ (DeleteBook db id s).calls),
          (DeleteBook db id s).calls⟩ := by
  cases hv : validateID id with
  | false => simp [DeleteBook, hv]
  | true =>
    rcases hsel : db.SelectBookByID id s with ⟨⟨bk, e⟩, s1⟩
    cases bk <;> cases e <;> simp [DeleteBook, traced, hv, hsel]

/-- C7: for every positive id, every non-nil dto with non-empty author and
title and every gateway whose `SelectBookByID id` returns record `b` with a nil
error: the service applies the gateway's `UpdateBook` to `id` and to the record
`r` that has the dto's Author and Title and the ID, CreatedBy and CreatedAt of
`b`, in the state the read left. The final gateway state is the one that
`UpdateBook id r` produced, the service's call log and the log a recorder in
front of the gateway keeps are both `SelectBookByID id` then `UpdateBook id r`,
and the error of that call, if any, is what the service returns. -/
theorem C7_update_writes_merged_record {σ : Type} (db : Database σ) (s s1 : σ) (id : Int)
    (dto : BookDTO) (b : Book)
    (hid : 0 < id) (ha : dto.Author ≠ "") (ht : dto.Title ≠ "")
    (hsel : db.SelectBookByID id s = ((some b, none), s1)) :
    ∃ r : Book,
      r.Author = dto.Author ∧ r.Title = dto.Title ∧
      r.ID = b.ID ∧ r.CreatedBy = b.CreatedBy ∧ r.CreatedAt = b.CreatedAt ∧
      (UpdateBook db id (some dto) s).calls = [Call.SelectBookByID id, Call.UpdateBook id r] ∧
      (UpdateBook db id (some dto) s).state = (db.UpdateBook id r s1).2 ∧
      (UpdateBook (traced db) id (some dto) (s, [])).state
        = ((db.UpdateBook id r s1).2, [Call.SelectBookByID id, Call.UpdateBook id r]) ∧
      ((db.UpdateBook id r s1).1.1 ≠ none →
        (UpdateBook db id (some dto) s).outcome
          = .returned (none, (db.UpdateBook id r s1).1.1)) := by
  have hv := validateID_true_of_pos hid
  have hva := validateAuthor_true_of_ne ha
  have hvt := validateTitle_true_of_ne ht
  refine ⟨{ b with Author := dto.Author, Title := dto.Title }, rfl, rfl, rfl, rfl, rfl, ?_⟩
  rcases hupd : db.UpdateBook id { b with Author := dto.Author, Title := dto.Title } s1
    with ⟨⟨e, after⟩, s2⟩
  have hcalls : (UpdateBook db id (some dto) s).calls
      = [Call.SelectBookByID id,
          Call.UpdateBook id { b with Author := dto.Author, Title := dto.Title }] := by
    cases e <;> simp [UpdateBook, hv, hva, hvt, hsel, hupd]
  have hstate : (UpdateBook db id (some dto) s).state = s2 := by
    cases e <;> simp [UpdateBook, hv, hva, hvt, hsel, hupd]
  refine ⟨hcalls, hstate, ?_, ?_⟩
  · rw [traced_UpdateBook, hcalls, hstate]
    rfl
  · intro he
    cases e with
    | none => exact absurd rfl he
    | some e => simp [UpdateBook, hv, hva, hvt, hsel, hupd]

/-- C7 over the in-memory gateway holding book 1: the dto carries another ID
and timestamp; the record the gateway receives, and then stores, keeps the
stored ID 1, creator 4 and timestamp 7. -/
theorem C7_update_writes_merged_record_witness :
    (UpdateBook memDB 1 (some ⟨99, "S. Lem", "Solaris 2", 1000⟩)
        ⟨[⟨1, 4, 7, "Lem", "Solaris"⟩], 1⟩).calls
      = [Call.SelectBookByID 1, Call.UpdateBook 1 ⟨1, 4, 7, "S. Lem", "Solaris 2"⟩] ∧
    (UpdateBook memDB 1 (some ⟨99, "S. Lem", "Solaris 2", 1000⟩)
        ⟨[⟨1, 4, 7, "Lem", "Solaris"⟩], 1⟩).state
      = ⟨[⟨1, 4, 7, "S. Lem", "Solaris 2"⟩], 1⟩ ∧
    (UpdateBook (traced memDB) 1 (some ⟨99, "S. Lem", "Solaris 2", 1000⟩)
        (⟨[⟨1, 4, 7, "Lem", "Solaris"⟩], 1⟩, [])).state
      = (⟨[⟨1, 4, 7, "S. Lem", "Solaris 2"⟩], 1⟩,
          [Call.SelectBookByID 1, Call.UpdateBook 1 ⟨1, 4, 7, "S. Lem", "Solaris 2"⟩]) := by
  obtain ⟨r, h1, h2, h3, h4, h5, hc, hs, ht, -⟩ := C7_update_writes_merged_record memDB
    ⟨[⟨1, 4, 7, "Lem", "Solaris"⟩], 1⟩ ⟨[⟨1, 4, 7, "Lem", "Solaris"⟩], 1⟩ 1
    ⟨99, "S. Lem", "Solaris 2", 1000⟩ ⟨1, 4, 7, "Lem", "Solaris"⟩
    (by decide) (by decide) (by decide) rfl
  have hr : r = ⟨1, 4, 7, "S. Lem", "Solaris 2"⟩ := by
    cases r
    simp_all
  subst hr
  exact ⟨hc, hs, ht⟩

/-- C9: gateway failures pass through unchanged. With `e` the non-nil error of
the failing gateway call: `GetBooks` returns `e` when `SelectAllBooks` fails;
`AddBook` (valid inputs) returns `e` when `InsertBook` fails, and when
`InsertBook` succeeds with `newID` and the re-read of `newID` fails; `UpdateBook`
(valid inputs) and `DeleteBook` return `e` when the existence read gives a record
and the gateway write fails. Each time no DTO is returned and the call log ends
with the failing call. -/
theorem C9_gateway_errors_pass_through {σ : Type} (db : Database σ) (s s1 s2 : σ) (now : Time)
    (id newID : Int) (dto : BookDTO) (cdto : BookCreateDTO) (b after : Book)
    (books : List Book) (book : Option Book) (e : Error)
    (hid : 0 < id) (ha : dto.Author ≠ "") (ht : dto.Title ≠ "")
    (hca : cdto.Author ≠ "") (hct : cdto.Title ≠ "") :
    (db.SelectAllBooks s = ((books, some e), s1) →
      GetBooks db s = ⟨.returned (none, some e), s1, [Call.SelectAllBooks]⟩) ∧
    (db.InsertBook ⟨0, id, now, cdto.Author, cdto.Title⟩ s = ((newID, some e), s1) →
      AddBook db now id (some cdto) s
        = ⟨.returned (none, some e), s1,
            [Call.InsertBook ⟨0, id, now, cdto.Author, cdto.Title⟩]⟩) ∧
    (db.InsertBook ⟨0, id, now, cdto.Author, cdto.Title⟩ s = ((newID, none), s1) →
      db.SelectBookByID newID s1 = ((book, some e), s2) →
      AddBook db now id (some cdto) s
        = ⟨.returned (none, some e), s2,
            [Call.InsertBook ⟨0, id, now, cdto.Author, cdto.Title⟩,
              Call.SelectBookByID newID]⟩) ∧
    (db.SelectBookByID id s = ((some b, none), s1) →
      db.UpdateBook id { b with Author := dto.Author, Title := dto.Title } s1
        = ((some e, after), s2) →
      UpdateBook db id (some dto) s
        = ⟨.returned (none, some e), s2,
            [Call.SelectBookByID id,
              Call.UpdateBook id { b with Author := dto.Author, Title := dto.Title }]⟩) ∧
    (db.SelectBookByID id s = ((some b, none), s1) →
      db.DeleteBook id s1 = (some e, s2) →
      DeleteBook db id s
        = ⟨.returned (some e), s2, [Call.SelectBookByID id, Call.DeleteBook id]⟩) := by
  have hv := validateID_true_of_pos hid
  have hva := validateAuthor_true_of_ne ha
  have hvt := validateTitle_true_of_ne ht
  have hvca := validateAuthor_true_of_ne hca
  have hvct := validateTitle_true_of_ne hct
  refine ⟨?_, ?_, ?_, ?_, ?_⟩
  · intro h
    simp [GetBooks, h]
  · intro h
    simp [AddBook, hv, hvca, hvct, h]
  · intro h1 h2
    simp [AddBook, hv, hvca, hvct, h1, h2]
  · intro h1 h2
    simp [UpdateBook, hv, hva, hvt, h1, h2]
  · intro h1 h2
    simp [DeleteBook, hv, h1, h2]

/-- C9 over the in-memory gateway with injected failures: a store holding book
1 whose list, update and delete operations fail; an insert that fails; an insert
that succeeds followed by a failing re-read. -/
theorem C9_gateway_errors_pass_through_witness :
    GetBooks (faultyDB ⟨some (.other "list"), none, none, some (.other "down"),
        some (.other "down")⟩) ⟨[⟨1, 4, 7, "Lem", "Solaris"⟩], 1⟩
      = ⟨.returned (none, some (.other "list")), ⟨[⟨1, 4, 7, "Lem", "Solaris"⟩], 1⟩,
          [Call.SelectAllBooks]⟩ ∧
    UpdateBook (faultyDB ⟨some (.other "down"), none, none, some (.other "down"),
        some (.other "down")⟩) 1 (some ⟨1, "S. Lem", "Solaris 2", 9⟩)
        ⟨[⟨1, 4, 7, "Lem", "Solaris"⟩], 1⟩
      = ⟨.returned (none, some (.other "down")), ⟨[⟨1, 4, 7, "Lem", "Solaris"⟩], 1⟩,
          [Call.SelectBookByID 1, Call.UpdateBook 1 ⟨1, 4, 7, "S. Lem", "Solaris 2"⟩]⟩ ∧
    DeleteBook (faultyDB ⟨some (.other "down"), none, none, some (.other "down"),
        some (.other "down")⟩) 1 ⟨[⟨1, 4, 7, "Lem", "Solaris"⟩], 1⟩
      = ⟨.returned (some (.other "down")), ⟨[⟨1, 4, 7, "Lem", "Solaris"⟩], 1⟩,
          [Call.SelectBookByID 1, Call.DeleteBook 1]⟩ ∧
    AddBook (faultyDB ⟨none, none, some (.other "full"), none, none⟩) 7 1
        (some ⟨"Lem", "Solaris"⟩) memdb.empty
      = ⟨.returned (none, some (.other "full")), memdb.empty,
          [Call.InsertBook ⟨0, 1, 7, "Lem", "Solaris"⟩]⟩ ∧
    AddBook (faultyDB ⟨none, some (.other "gone"), none, none, none⟩) 7 1
        (some ⟨"Lem", "Solaris"⟩) memdb.empty
      = ⟨.returned (none, some (.other "gone")), ⟨[⟨1, 1, 7, "Lem", "Solaris"⟩], 1⟩,
          [Call.InsertBook ⟨0, 1, 7, "Lem", "Solaris"⟩, Call.SelectBookByID 1]⟩ :=
  have t1 := C9_gateway_errors_pass_through
    (faultyDB ⟨some (.other "list"), none, none, some (.other "down"), some (.other "down")⟩)
    ⟨[⟨1, 4, 7, "Lem", "Solaris"⟩], 1⟩ ⟨[⟨1, 4, 7, "Lem", "Solaris"⟩], 1⟩
    ⟨[⟨1, 4, 7, "Lem", "Solaris"⟩], 1⟩ 7 1 1 ⟨1, "S. Lem", "Solaris 2", 9⟩ ⟨"Lem", "Solaris"⟩
    ⟨1, 4, 7, "Lem", "Solaris"⟩ ⟨1, 4, 7, "S. Lem", "Solaris 2"⟩ [] none (.other "list")
    (by decide) (by decide) (by decide) (by decide) (by decide)
  have t2 := C9_gateway_errors_pass_through
    (faultyDB ⟨some (.other "down"), none, none, some (.other "down"), some (.other "down")⟩)
    ⟨[⟨1, 4, 7, "Lem", "Solaris"⟩], 1⟩ ⟨[⟨1, 4, 7, "Lem", "Solaris"⟩], 1⟩
    ⟨[⟨1, 4, 7, "Lem", "Solaris"⟩], 1⟩ 7 1 1 ⟨1, "S. Lem", "Solaris 2", 9⟩ ⟨"Lem", "Solaris"⟩
    ⟨1, 4, 7, "Lem", "Solaris"⟩ ⟨1, 4, 7, "S. Lem", "Solaris 2"⟩ [] none (.other "down")
    (by decide) (by decide) (by decide) (by decide) (by decide)
  have t3 := C9_gateway_errors_pass_through
    (faultyDB ⟨none, none, some (.other "full"), none, none⟩)
    memdb.empty memdb.empty memdb.empty 7 1 0 ⟨1, "S. Lem", "Solaris 2", 9⟩ ⟨"Lem", "Solaris"⟩
    ⟨1, 4, 7, "Lem", "Solaris"⟩ ⟨1, 4, 7, "S. Lem", "Solaris 2"⟩ [] none (.other "full")
    (by decide) (by decide) (by decide) (by decide) (by decide)
  have t4 := C9_gateway_errors_pass_through
    (faultyDB ⟨none, some (.other "gone"), none, none, none⟩)
    memdb.empty ⟨[⟨1, 1, 7, "Lem", "Solaris"⟩], 1⟩ ⟨[⟨1, 1, 7, "Lem", "Solaris"⟩], 1⟩ 7 1 1
    ⟨1, "S. Lem", "Solaris 2", 9⟩ ⟨"Lem", "Solaris"⟩
    ⟨1, 4, 7, "Lem", "Solaris"⟩ ⟨1, 4, 7, "S. Lem", "Solaris 2"⟩ [] none (.other "gone")
    (by decide) (by decide) (by decide) (by decide) (by decide)
  ⟨t1.1 rfl, t2.2.2.2.1 rfl rfl, t2.2.2.2.2 rfl rfl, t3.2.1 rfl, t4.2.2.1 rfl rfl⟩

theorem memDB_lawful : Lawful memDB lookup := by
  constructor
  · intro b s
    refine ⟨rfl, ?_, ?_⟩
    · show (0 : Int) < (s.lastID : Int) + 1
      omega
    · simp [memDB, lookup]
  · intro id s
    exact ⟨rfl, rfl⟩

/-- C10: over every lawful gateway (`InsertBook` stores the record under a
positive id and returns it, `SelectBookByID` returns what is stored), for every
`createdByID > 0` and every non-nil dto with non-empty author and title:
`AddBook` returns a DTO `d` with a nil error, `d.ID` is positive, `d` has the
dto's author and title and `CreatedAt = now`, and `GetBook d.ID` in the state
`AddBook` left returns, with a nil error, the DTO with that ID, the dto's author
and title and `CreatedAt = now`. -/
theorem C10_add_then_get_round_trip {σ : Type} (db : Database σ)
    (stored : σ → Int → Option Book) (hlaw : Lawful db stored) (s : σ) (now : Time)
    (createdByID : Int) (dto : BookCreateDTO)
    (hid : 0 < createdByID) (ha : dto.Author ≠ "") (ht : dto.Title ≠ "") :
    ∃ d : BookDTO,
      (AddBook db now createdByID (some dto) s).outcome = .returned (some d, none) ∧
      0 < d.ID ∧ d.Author = dto.Author ∧ d.Title = dto.Title ∧ d.CreatedAt = now ∧
      (GetBook db d.ID (AddBook db now createdByID (some dto) s).state).outcome
        = .returned (some ⟨d.ID, dto.Author, dto.Title, now⟩, none) := by
  have hv := validateID_true_of_pos hid
  have hva := validateAuthor_true_of_ne ha
  have hvt := validateTitle_true_of_ne ht
  have hi := hlaw.insert_ok ⟨0, createdByID, now, dto.Author, dto.Title⟩ s
  rcases hins : db.InsertBook ⟨0, createdByID, now, dto.Author, dto.Title⟩ s with ⟨⟨nid, e⟩, s1⟩
  rw [hins] at hi
  obtain ⟨he, hpos, hst⟩ := hi
  simp only at he hpos hst
  subst he
  have hs1 := hlaw.select_ok nid s1
  rcases hsel1 : db.SelectBookByID nid s1 with ⟨⟨bk, e1⟩, s2⟩
  rw [hsel1] at hs1
  obtain ⟨hr1, hst1⟩ := hs1
  simp only [Prod.mk.injEq] at hr1 hst1
  obtain ⟨rfl, rfl⟩ := hr1
  have hs2 := hlaw.select_ok nid s2
  rcases hsel2 : db.SelectBookByID nid s2 with ⟨⟨bk2, e2⟩, s3⟩
  rw [hsel2] at hs2
  obtain ⟨hr2, -⟩ := hs2
  simp only [Prod.mk.injEq] at hr2
  obtain ⟨rfl, rfl⟩ := hr2
  have hadd : AddBook db now createdByID (some dto) s
      = ⟨.returned (some ⟨nid, dto.Author, dto.Title, now⟩, none), s2,
          [Call.InsertBook ⟨0, createdByID, now, dto.Author, dto.Title⟩,
            Call.SelectBookByID nid]⟩ := by
    simp [AddBook, hv, hva, hvt, hins, hsel1, hst, int64]
  refine ⟨⟨nid, dto.Author, dto.Title, now⟩, ?_, hpos, rfl, rfl, rfl, ?_⟩
  · rw [hadd]
  · rw [hadd]
    simp [GetBook, validateID_true_of_pos hpos, hsel2, hst1, hst, int64]

/-- C10 over the in-memory gateway, starting empty: creator 4 adds a book at
time 7. -/
theorem C10_add_then_get_round_trip_witness :
    Lawful memDB lookup ∧
    ∃ d : BookDTO,
      (AddBook memDB 7 4 (some ⟨"Lem", "Solaris"⟩) memdb.empty).outcome
        = .returned (some d, none) ∧
      0 < d.ID ∧ d.Author = "Lem" ∧ d.Title = "Solaris" ∧ d.CreatedAt = 7 ∧
      (GetBook memDB d.ID
          (AddBook memDB 7 4 (some ⟨"Lem", "Solaris"⟩) memdb.empty).state).outcome
        = .returned (some ⟨d.ID, "Lem", "Solaris", 7⟩, none) :=
  ⟨memDB_lawful,
    C10_add_then_get_round_trip memDB lookup memDB_lawful memdb.empty 7 4 ⟨"Lem", "Solaris"⟩
      (by decide) (by decide) (by decide)⟩

/-- C13: on every successful run the gateway is really driven through exactly
these calls, each applied to the state the previous one left. `AddBook`:
`InsertBook r` (with `r` built from the arguments) on the initial state, then
`SelectBookByID newId` on the state the insert left, `newId` being the id the
insert returned. `UpdateBook`: `SelectBookByID id`, then `UpdateBook id r` on
the state the read left, `r` being the record read with the dto's author and
title. `DeleteBook`: `SelectBookByID id`, then `DeleteBook id` on the state the
read left. The final gateway state is the one the last call produced, and the
service's call log and the log of a recorder in front of the gateway both show
those two calls and no other: one write and one read, the read second for add
and first for update and delete, the write on the id that was read. -/
theorem C13_call_sequence_on_success {σ : Type} (db : Database σ) (s : σ) (now : Time)
    (id : Int) (cdto : Option BookCreateDTO) (dto : Option BookDTO) :
    (∀ d, (AddBook db now id cdto s).outcome = .returned (some d, none) →
      ∃ c : BookCreateDTO, cdto = some c ∧
        AddBook db now id cdto s
          = ⟨.returned (some d, none),
              (db.SelectBookByID (db.InsertBook ⟨0, id, now, c.Author, c.Title⟩ s).1.1
                (db.InsertBook ⟨0, id, now, c.Author, c.Title⟩ s).2).2,
              [Call.InsertBook ⟨0, id, now, c.Author, c.Title⟩,
                Call.SelectBookByID (db.InsertBook ⟨0, id, now, c.Author, c.Title⟩ s).1.1]⟩ ∧
        (AddBook (traced db) now id cdto (s, [])).state.2
          = [Call.InsertBook ⟨0, id, now, c.Author, c.Title⟩,
              Call.SelectBookByID (db.InsertBook ⟨0, id, now, c.Author, c.Title⟩ s).1.1] ∧
        (AddBook db now id cdto s).calls.map Call.isWrite = [true, false]) ∧
    (∀ d, (UpdateBook db id dto s).outcome = .returned (some d, none) →
      ∃ (c : BookDTO) (b : Book), dto = some c ∧
        (db.SelectBookByID id s).1 = (some b, none) ∧
        UpdateBook db id dto s
          = ⟨.returned (some d, none),
              (db.UpdateBook id { b with Author := c.Author, Title := c.Title }
                (db.SelectBookByID id s).2).2,
              [Call.SelectBookByID id,
                Call.UpdateBook id { b with Author := c.Author, Title := c.Title }]⟩ ∧
        (UpdateBook (traced db) id dto (s, [])).state.2
          = [Call.SelectBookByID id,
              Call.UpdateBook id { b with Author := c.Author, Title := c.Title }] ∧
        (UpdateBook db id dto s).calls.map Call.isWrite = [false, true]) ∧
    ((DeleteBook db id s).outcome = .returned none →
      DeleteBook db id s
        = ⟨.returned none, (db.DeleteBook id (db.SelectBookByID id s).2).2,
            [Call.SelectBookByID id, Call.DeleteBook id]⟩ ∧
      (DeleteBook (traced db) id (s, [])).state.2
        = [Call.SelectBookByID id, Call.DeleteBook id] ∧
      (DeleteBook db id s).calls.map Call.isWrite = [false, true]) := by
  refine ⟨?_, ?_, ?_⟩
  · intro d hd
    cases hv : validateID id with
    | false => simp [AddBook, hv] at hd
    | true =>
      cases cdto with
      | none => simp [AddBook, hv] at hd
      | some c =>
        refine ⟨c, rfl, ?_⟩
        cases hva : validateAuthor c.Author with
        | false => simp [AddBook, hv, hva] at hd
        | true =>
          cases hvt : validateTitle c.Title with
          | false => simp [AddBook, hv, hva, hvt] at hd
          | true =>
            rcases hins : db.InsertBook ⟨0, id, now, c.Author, c.Title⟩ s with ⟨⟨nid, e⟩, s1⟩
            cases e with
            | some e => simp [AddBook, hv, hva, hvt, hins] at hd
            | none =>
              rcases hsel : db.SelectBookByID nid s1 with ⟨⟨bk, e1⟩, s2⟩
              cases e1 with
              | some e1 => simp [AddBook, hv, hva, hvt, hins, hsel] at hd
              | none =>
                cases bk with
                | none => simp [AddBook, hv, hva, hvt, hins, hsel] at hd
                | some b =>
                  have hrun : AddBook db now id (some c) s
                      = ⟨.returned (some ⟨b.ID, b.Author, b.Title, b.CreatedAt⟩, none), s2,
                          [Call.InsertBook ⟨0, id, now, c.Author, c.Title⟩,
                            Call.SelectBookByID nid]⟩ := by
                    simp [AddBook, hv, hva, hvt, hins, hsel, int64]
                  rw [hrun] at hd
                  simp only [Outcome.returned.injEq, Prod.mk.injEq, Option.some.injEq,
                    and_true] at hd
                  subst hd
                  refine ⟨?_, ?_, ?_⟩
                  · exact hrun
                  · rw [traced_AddBook, hrun]
                    rfl
                  · rw [hrun]
                    rfl
  · intro d hd
    cases hv : validateID id with
    | false => simp [UpdateBook, hv] at hd
    | true =>
      cases dto with
      | none => simp [UpdateBook, hv] at hd
      | some c =>
        cases hva : validateAuthor c.Author with
        | false => simp [UpdateBook, hv, hva] at hd
        | true =>
          cases hvt : validateTitle c.Title with
          | false => simp [UpdateBook, hv, hva, hvt] at hd
          | true =>
            rcases hsel : db.SelectBookByID id s with ⟨⟨bk, e⟩, s1⟩
            cases e with
            | some e => simp [UpdateBook, hv, hva, hvt, hsel] at hd
            | none =>
              cases bk with
              | none => simp [UpdateBook, hv, hva, hvt, hsel] at hd
              | some b =>
                refine ⟨c, b, rfl, rfl, ?_⟩
                rcases hupd : db.UpdateBook id { b with Author := c.Author, Title := c.Title } s1
                  with ⟨⟨e2, after⟩, s2⟩
                cases e2 with
                | some e2 => simp [UpdateBook, hv, hva, hvt, hsel, hupd] at hd
                | none =>
                  have hrun : UpdateBook db id (some c) s
                      = ⟨.returned
                            (some ⟨after.ID, after.Author, after.Title, after.CreatedAt⟩, none),
                          s2,
                          [Call.SelectBookByID id,
                            Call.UpdateBook id
                              { b with Author := c.Author, Title := c.Title }]⟩ := by
                    simp [UpdateBook, hv, hva, hvt, hsel, hupd, int64]
                  rw [hrun] at hd
                  simp only [Outcome.returned.injEq, Prod.mk.injEq, Option.some.injEq,
                    and_true] at hd
                  subst hd
                  refine ⟨?_, ?_, ?_⟩
                  · exact hrun
                  · rw [traced_UpdateBook, hrun]
                    rfl
                  · rw [hrun]
                    rfl
  · intro hd
    cases hv : validateID id with
    | false => simp [DeleteBook, hv] at hd
    | true =>
      rcases hsel : db.SelectBookByID id s with ⟨⟨bk, e⟩, s1⟩
      cases e with
      | some e => simp [DeleteBook, hv, hsel] at hd
      | none =>
        cases bk with
        | none => simp [DeleteBook, hv, hsel] at hd
        | some b =>
          rcases hdel : db.DeleteBook id s1 with ⟨e2, s2⟩
          have hrun : DeleteBook db id s
              = ⟨.returned e2, s2, [Call.SelectBookByID id, Call.DeleteBook id]⟩ := by
            simp [DeleteBook, hv, hsel, hdel]
          rw [hrun] at hd
          simp only [Outcome.returned.injEq] at hd
          subst hd
          refine ⟨?_, ?_, ?_⟩
          · exact hrun
          · rw [traced_DeleteBook, hrun]
            rfl
          · rw [hrun]
            rfl

/-- C13 over the in-memory gateway: creator 4 adds the first book (it gets id
1); book 1 is updated; book 1 is deleted. All three runs succeed, and the
store after each is what the write primitive made of it. -/
theorem C13_call_sequence_on_success_witness :
    (AddBook memDB 7 4 (some ⟨"Lem", "Solaris"⟩) memdb.empty).outcome
      = .returned (some ⟨1, "Lem", "Solaris", 7⟩, none) ∧
    (∃ c : BookCreateDTO, some (⟨"Lem", "Solaris"⟩ : BookCreateDTO) = some c ∧
      AddBook memDB 7 4 (some ⟨"Lem", "Solaris"⟩) memdb.empty
        = ⟨.returned (some ⟨1, "Lem", "Solaris", 7⟩, none),
            (memDB.SelectBookByID (memDB.InsertBook ⟨0, 4, 7, c.Author, c.Title⟩ memdb.empty).1.1
              (memDB.InsertBook ⟨0, 4, 7, c.Author, c.Title⟩ memdb.empty).2).2,
            [Call.InsertBook ⟨0, 4, 7, c.Author, c.Title⟩,
              Call.SelectBookByID
                (memDB.InsertBook ⟨0, 4, 7, c.Author, c.Title⟩ memdb.empty).1.1]⟩ ∧
      (AddBook (traced memDB) 7 4 (some ⟨"Lem", "Solaris"⟩) (memdb.empty, [])).state.2
        = [Call.InsertBook ⟨0, 4, 7, c.Author, c.Title⟩,
            Call.SelectBookByID
              (memDB.InsertBook ⟨0, 4, 7, c.Author, c.Title⟩ memdb.empty).1.1] ∧
      (AddBook memDB 7 4 (some ⟨"Lem", "Solaris"⟩) memdb.empty).calls.map Call.isWrite
        = [true, false]) ∧
    (AddBook memDB 7 4 (some ⟨"Lem", "Solaris"⟩) memdb.empty).state
      = ⟨[⟨1, 4, 7, "Lem", "Solaris"⟩], 1⟩ ∧
    (UpdateBook memDB 1 (some ⟨99, "S. Lem", "Solaris 2", 1000⟩)
        ⟨[⟨1, 4, 7, "Lem", "Solaris"⟩], 1⟩).outcome
      = .returned (some ⟨1, "S. Lem", "Solaris 2", 7⟩, none) ∧
    (∃ (c : BookDTO) (b : Book),
      some (⟨99, "S. Lem", "Solaris 2", 1000⟩ : BookDTO) = some c ∧
      (memDB.SelectBookByID 1 ⟨[⟨1, 4, 7, "Lem", "Solaris"⟩], 1⟩).1 = (some b, none) ∧
      UpdateBook memDB 1 (some ⟨99, "S. Lem", "Solaris 2", 1000⟩)
          ⟨[⟨1, 4, 7, "Lem", "Solaris"⟩], 1⟩
        = ⟨.returned (some ⟨1, "S. Lem", "Solaris 2", 7⟩, none),
            (memDB.UpdateBook 1 { b with Author := c.Author, Title := c.Title }
              (memDB.SelectBookByID 1 ⟨[⟨1, 4, 7, "Lem", "Solaris"⟩], 1⟩).2).2,
            [Call.SelectBookByID 1,
              Call.UpdateBook 1 { b with Author := c.Author, Title := c.Title }]⟩ ∧
      (UpdateBook (traced memDB) 1 (some ⟨99, "S. Lem", "Solaris 2", 1000⟩)
          (⟨[⟨1, 4, 7, "Lem", "Solaris"⟩], 1⟩, [])).state.2
        = [Call.SelectBookByID 1,
            Call.UpdateBook 1 { b with Author := c.Author, Title := c.Title }] ∧
      (UpdateBook memDB 1 (some ⟨99, "S. Lem", "Solaris 2", 1000⟩)
          ⟨[⟨1, 4, 7, "Lem", "Solaris"⟩], 1⟩).calls.map Call.isWrite = [false, true]) ∧
    (UpdateBook memDB 1 (some ⟨99, "S. Lem", "Solaris 2", 1000⟩)
        ⟨[⟨1, 4, 7, "Lem", "Solaris"⟩], 1⟩).state
      = ⟨[⟨1, 4, 7, "S. Lem", "Solaris 2"⟩], 1⟩ ∧
    (DeleteBook memDB 1 ⟨[⟨1, 4, 7, "Lem", "Solaris"⟩, ⟨2, 4, 8, "Herbert", "Dune"⟩], 2⟩).outcome
      = .returned none ∧
    DeleteBook memDB 1 ⟨[⟨1, 4, 7, "Lem", "Solaris"⟩, ⟨2, 4, 8, "Herbert", "Dune"⟩], 2⟩
      = ⟨.returned none, ⟨[⟨2, 4, 8, "Herbert", "Dune"⟩], 2⟩,
          [Call.SelectBookByID 1, Call.DeleteBook 1]⟩ ∧
    (DeleteBook (traced memDB) 1
        (⟨[⟨1, 4, 7, "Lem", "Solaris"⟩, ⟨2, 4, 8, "Herbert", "Dune"⟩], 2⟩, [])).state.2
      = [Call.SelectBookByID 1, Call.DeleteBook 1] :=
  have tAdd := (C13_call_sequence_on_success memDB memdb.empty 7 4
    (some ⟨"Lem", "Solaris"⟩) none).1 ⟨1, "Lem", "Solaris", 7⟩ (by decide)
  have tUpd := (C13_call_sequence_on_success memDB ⟨[⟨1, 4, 7, "Lem", "Solaris"⟩], 1⟩ 7 1
    none (some ⟨99, "S. Lem", "Solaris 2", 1000⟩)).2.1 ⟨1, "S. Lem", "Solaris 2", 7⟩
    (by decide)
  have tDel := (C13_call_sequence_on_success memDB
    ⟨[⟨1, 4, 7, "Lem", "Solaris"⟩, ⟨2, 4, 8, "Herbert", "Dune"⟩], 2⟩ 7 1 none none).2.2
    (by decide)
  ⟨by decide, tAdd, by decide, by decide, tUpd, by decide, by decide, tDel.1, tDel.2.1⟩

/-- C14: for every valid `AddBook` request the first gateway call is
`InsertBook` of the record with `CreatedBy = createdByID`, `CreatedAt = now`,
the dto's author and title and zero ID, and the only other call ever made is the
re-read of the id `InsertBook` returned; when `InsertBook` returns `newID` with a
nil error and the re-read of `newID` returns record `b` with a nil error, the
returned DTO is the field-wise conversion of `b`, whatever the dto said. -/
theorem C14_AddBook_inserts_request_returns_storage {σ : Type} (db : Database σ)
    (s s1 s2 : σ) (now : Time) (createdByID newID : Int) (dto : BookCreateDTO) (b : Book)
    (hid : 0 < createdByID) (ha : dto.Author ≠ "") (ht : dto.Title ≠ "") :
    ((AddBook db now createdByID (some dto) s).calls
        = [Call.InsertBook ⟨0, createdByID, now, dto.Author, dto.Title⟩] ∨
      (AddBook db now createdByID (some dto) s).calls
        = [Call.InsertBook ⟨0, createdByID, now, dto.Author, dto.Title⟩,
            Call.SelectBookByID
              (db.InsertBook ⟨0, createdByID, now, dto.Author, dto.Title⟩ s).1.1]) ∧
    (db.InsertBook ⟨0, createdByID, now, dto.Author, dto.Title⟩ s = ((newID, none), s1) →
      db.SelectBookByID newID s1 = ((some b, none), s2) →
      AddBook db now createdByID (some dto) s
        = ⟨.returned (some (bookToDTO b), none), s2,
            [Call.InsertBook ⟨0, createdByID, now, dto.Author, dto.Title⟩,
              Call.SelectBookByID newID]⟩) := by
  have hv := validateID_true_of_pos hid
  have hva := validateAuthor_true_of_ne ha
  have hvt := validateTitle_true_of_ne ht
  refine ⟨?_, ?_⟩
  · rcases hins : db.InsertBook ⟨0, createdByID, now, dto.Author, dto.Title⟩ s with ⟨⟨nid, e⟩, s1⟩
    cases e with
    | some e => simp [AddBook, hv, hva, hvt, hins]
    | none =>
      rcases hsel : db.SelectBookByID nid s1 with ⟨⟨bk, e1⟩, s2⟩
      cases e1 with
      | some e1 => simp [AddBook, hv, hva, hvt, hins, hsel]
      | none => cases bk <;> simp [AddBook, hv, hva, hvt, hins, hsel]
  · intro hins hsel
    simp [AddBook, hv, hva, hvt, hins, hsel, int64, bookToDTO]

/-- C14 over an in-memory gateway whose storage stamps the creation time 1000
itself: the request carries `now = 7`, the returned DTO carries 1000. -/
theorem C14_AddBook_inserts_request_returns_storage_witness :
    AddBook (stampingDB 1000) 7 4 (some ⟨"Lem", "Solaris"⟩) memdb.empty
      = ⟨.returned (some ⟨1, "Lem", "Solaris", 1000⟩, none),
          ⟨[⟨1, 4, 1000, "Lem", "Solaris"⟩], 1⟩,
          [Call.InsertBook ⟨0, 4, 7, "Lem", "Solaris"⟩, Call.SelectBookByID 1]⟩ :=
  ((C14_AddBook_inserts_request_returns_storage (stampingDB 1000) memdb.empty
      ⟨[⟨1, 4, 1000, "Lem", "Solaris"⟩], 1⟩ ⟨[⟨1, 4, 1000, "Lem", "Solaris"⟩], 1⟩ 7 4 1
      ⟨"Lem", "Solaris"⟩ ⟨1, 4, 1000, "Lem", "Solaris"⟩
      (by decide) (by decide) (by decide)).2 rfl rfl)

/-- C15: the read methods are read-only. On every gateway `GetBooks` makes
exactly the call `SelectAllBooks`, and `GetBook` makes either no call or exactly
the call `SelectBookByID id`; none of these calls is a write, and the gateway
state they leave is the one the read primitive itself left. Over the in-memory
gateway the state after the call is the state before it. -/
theorem C15_reads_are_read_only {σ : Type} (db : Database σ) (s : σ) (id : Int)
    (m : MemState) :
    (GetBooks db s).calls = [Call.SelectAllBooks] ∧
    (GetBooks db s).state = (db.SelectAllBooks s).2 ∧
    (((GetBook db id s).calls = [] ∧ (GetBook db id s).state = s) ∨
      ((GetBook db id s).calls = [Call.SelectBookByID id] ∧
        (GetBook db id s).state = (db.SelectBookByID id s).2)) ∧
    (∀ c ∈ (GetBooks db s).calls ++ (GetBook db id s).calls, c.isWrite = false) ∧
    (GetBooks memDB m).state = m ∧ (GetBook memDB id m).state = m := by
  have h1 : (GetBooks db s).calls = [Call.SelectAllBooks] ∧
      (GetBooks db s).state = (db.SelectAllBooks s).2 := by
    unfold GetBooks
    rcases db.SelectAllBooks s with ⟨⟨books, err⟩, s1⟩
    cases err <;> simp
  have h2 : ((GetBook db id s).calls = [] ∧ (GetBook db id s).state = s) ∨
      ((GetBook db id s).calls = [Call.SelectBookByID id] ∧
        (GetBook db id s).state = (db.SelectBookByID id s).2) := by
    cases hv : validateID id with
    | false => left; simp [GetBook, hv]
    | true =>
      right
      rcases hsel : db.SelectBookByID id s with ⟨⟨bk, e⟩, s1⟩
      cases bk <;> cases e <;> simp [GetBook, hv, hsel]
  have h3 : ∀ (n : MemState), (GetBook memDB id n).state = n := by
    intro n
    cases hv : validateID id with
    | false => simp [GetBook, hv]
    | true =>
      cases hl : lookup n id <;> simp [GetBook, hv, memDB, hl]
  refine ⟨h1.1, h1.2, h2, ?_, ?_, h3 m⟩
  · intro c hc
    rw [h1.1] at hc
    rcases h2 with ⟨h, -⟩ | ⟨h, -⟩ <;> rw [h] at hc <;> simp at hc
    · subst hc; rfl
    · rcases hc with rfl | rfl <;> rfl
  · simp [GetBooks, memDB]

/-- C16: `UpdateBook` reads its dto only through `Author` and `Title`: two dtos
that agree on both, whatever their `ID` and `CreatedAt`, give the same outcome,
the same final gateway state and the same gateway calls with the same
arguments, on every gateway, state and id. -/
theorem C16_UpdateBook_depends_only_on_author_title {σ : Type} (db : Database σ) (s : σ)
    (id : Int) (d1 d2 : BookDTO) (ha : d1.Author = d2.Author) (ht : d1.Title = d2.Title) :
    UpdateBook db id (some d1) s = UpdateBook db id (some d2) s := by
  simp only [UpdateBook, ha, ht]

/-- C16 over the in-memory gateway holding book 1: a payload claiming ID 99
and timestamp 1000 and one claiming ID 1 and timestamp 7 do the same thing, and
the stored ID 1 and timestamp 7 survive. -/
theorem C16_UpdateBook_depends_only_on_author_title_witness :
    UpdateBook memDB 1 (some ⟨99, "S. Lem", "Solaris 2", 1000⟩) ⟨[⟨1, 4, 7, "Lem", "Solaris"⟩], 1⟩
      = UpdateBook memDB 1 (some ⟨1, "S. Lem", "Solaris 2", 7⟩)
          ⟨[⟨1, 4, 7, "Lem", "Solaris"⟩], 1⟩ ∧
    (UpdateBook memDB 1 (some ⟨99, "S. Lem", "Solaris 2", 1000⟩)
        ⟨[⟨1, 4, 7, "Lem", "Solaris"⟩], 1⟩).state
      = ⟨[⟨1, 4, 7, "S. Lem", "Solaris 2"⟩], 1⟩ :=
  ⟨C16_UpdateBook_depends_only_on_author_title memDB ⟨[⟨1, 4, 7, "Lem", "Solaris"⟩], 1⟩ 1
      ⟨99, "S. Lem", "Solaris 2", 1000⟩ ⟨1, "S. Lem", "Solaris 2", 7⟩ rfl rfl,
    by decide⟩

theorem lookup_mem {s : MemState} {id : Int} {b : Book} (h : lookup s id = some b) :
    b ∈ s.books ∧ b.ID = id := by
  unfold lookup at h
  refine ⟨List.mem_of_find?_eq_some h, ?_⟩
  have := List.find?_some h
  simpa using this

theorem GetBooks_memDB (s : MemState) :
    GetBooks memDB s
      = ⟨.returned (some (s.books.reverse.map bookToDTO), none), s, [Call.SelectAllBooks]⟩ := by
  have := foldl_append_singleton_eq_map
    (fun b : Book => (⟨int64 b.ID, b.Author, b.Title, b.CreatedAt⟩ : BookDTO)) s.books.reverse []
  simp only [List.nil_append] at this
  simp only [GetBooks, memDB, this]
  simp [int64, bookToDTO]

theorem GetBook_memDB (s : MemState) (id : Int) :
    (GetBook memDB id s).state = s ∧
    ∀ d ∈ returnedDTO (GetBook memDB id s).outcome, ∃ b ∈ s.books, d = bookToDTO b := by
  cases hv : validateID id with
  | false => simp [GetBook, hv, returnedDTO]
  | true =>
    cases hl : lookup s id with
    | none => simp [GetBook, hv, memDB, hl, returnedDTO]
    | some b =>
      have hb := (lookup_mem hl).1
      simp [GetBook, hv, memDB, hl, returnedDTO]
      exact ⟨b, hb, rfl⟩

theorem AddBook_memDB (s : MemState) (now : Time) (c : Int) (dto : Option BookCreateDTO) :
    ((AddBook memDB now c dto s).state = s ∧
      returnedDTO (AddBook memDB now c dto s).outcome = []) ∨
    (∃ d : BookCreateDTO, 0 < c ∧ d.Author ≠ "" ∧ d.Title ≠ "" ∧
      (AddBook memDB now c dto s).state
        = ⟨⟨(s.lastID : Int) + 1, c, now, d.Author, d.Title⟩ :: s.books, s.lastID + 1⟩ ∧
      returnedDTO (AddBook memDB now c dto s).outcome
        = [⟨(s.lastID : Int) + 1, d.Author, d.Title, now⟩]) := by
  cases hv : validateID c with
  | false => left; simp [AddBook, hv, returnedDTO]
  | true =>
    cases dto with
    | none => left; simp [AddBook, hv, returnedDTO]
    | some d =>
      cases hva : validateAuthor d.Author with
      | false => left; simp [AddBook, hv, hva, returnedDTO]
      | true =>
        cases hvt : validateTitle d.Title with
        | false => left; simp [AddBook, hv, hva, hvt, returnedDTO]
        | true =>
          right
          refine ⟨d, by simpa [validateID] using hv, by simpa [validateAuthor] using hva,
            by simpa [validateTitle] using hvt, ?_, ?_⟩ <;>
            simp [AddBook, hv, hva, hvt, memDB, lookup, returnedDTO, int64]

theorem UpdateBook_memDB (s : MemState) (id : Int) (dto : Option BookDTO) :
    ((UpdateBook memDB id dto s).state = s ∧
      returnedDTO (UpdateBook memDB id dto s).outcome = []) ∨
    (∃ (d : BookDTO) (b : Book), 0 < id ∧ d.Author ≠ "" ∧ d.Title ≠ "" ∧ b ∈ s.books ∧
      (UpdateBook memDB id dto s).state
        = { s with books := s.books.map (fun x =>
              if x.ID == id then ⟨id, b.CreatedBy, b.CreatedAt, d.Author, d.Title⟩ else x) } ∧
      returnedDTO (UpdateBook memDB id dto s).outcome
        = [⟨b.ID, d.Author, d.Title, b.CreatedAt⟩]) := by
  cases hv : validateID id with
  | false => left; simp [UpdateBook, hv, returnedDTO]
  | true =>
    cases dto with
    | none => left; simp [UpdateBook, hv, returnedDTO]
    | some d =>
      cases hva : validateAuthor d.Author with
      | false => left; simp [UpdateBook, hv, hva, returnedDTO]
      | true =>
        cases hvt : validateTitle d.Title with
        | false => left; simp [UpdateBook, hv, hva, hvt, returnedDTO]
        | true =>
          cases hl : lookup s id with
          | none => left; simp [UpdateBook, hv, hva, hvt, memDB, hl, returnedDTO]
          | some b =>
            right
            refine ⟨d, b, by simpa [validateID] using hv, by simpa [validateAuthor] using hva,
              by simpa [validateTitle] using hvt, (lookup_mem hl).1, ?_, ?_⟩ <;>
              simp [UpdateBook, hv, hva, hvt, memDB, hl, returnedDTO, int64]

theorem DeleteBook_memDB (s : MemState) (id : Int) :
    ∀ b ∈ (DeleteBook memDB id s).state.books, b ∈ s.books := by
  intro b hb
  cases hv : validateID id with
  | false => simpa [DeleteBook, hv] using hb
  | true =>
    cases hl : lookup s id with
    | none => simpa [DeleteBook, hv, memDB, hl] using hb
    | some x =>
      simp [DeleteBook, hv, memDB, hl] at hb
      exact hb.1

theorem exec_memDB_preserves (op : Op) (s : MemState) (h : ∀ b ∈ s.books, validBook b) :
    (∀ b ∈ (exec memDB op s).1.books, validBook b) ∧
    (∀ d ∈ (exec memDB op s).2, d.Author ≠ "" ∧ d.Title ≠ "") := by
  cases op with
  | GetBooks =>
    simp only [exec, GetBooks_memDB, returnedDTOs]
    refine ⟨h, ?_⟩
    intro d hd
    simp only [List.mem_map, List.mem_reverse] at hd
    obtain ⟨b, hb, rfl⟩ := hd
    exact ⟨(h b hb).1, (h b hb).2.1⟩
  | GetBook id =>
    obtain ⟨hs, hd⟩ := GetBook_memDB s id
    simp only [exec, hs]
    refine ⟨h, ?_⟩
    intro d hmem
    obtain ⟨b, hb, rfl⟩ := hd d hmem
    exact ⟨(h b hb).1, (h b hb).2.1⟩
  | AddBook now c dto =>
    simp only [exec]
    rcases AddBook_memDB s now c dto with ⟨hs, hd⟩ | ⟨d, hc, ha, ht, hs, hd⟩
    · rw [hs, hd]
      exact ⟨h, by simp⟩
    · rw [hs, hd]
      refine ⟨?_, ?_⟩
      · intro b hb
        simp only [List.mem_cons] at hb
        rcases hb with rfl | hb
        · exact ⟨ha, ht, hc, by simp only; omega⟩
        · exact h b hb
      · intro x hx
        simp only [List.mem_singleton] at hx
        subst hx
        exact ⟨ha, ht⟩
  | UpdateBook id dto =>
    simp only [exec]
    rcases UpdateBook_memDB s id dto with ⟨hs, hd⟩ | ⟨d, b0, hid, ha, ht, hb0, hs, hd⟩
    · rw [hs, hd]
      exact ⟨h, by simp⟩
    · rw [hs, hd]
      refine ⟨?_, ?_⟩
      · intro b hb
        simp only [List.mem_map] at hb
        obtain ⟨x, hx, rfl⟩ := hb
        split_ifs
        · exact ⟨ha, ht, (h b0 hb0).2.2.1, hid⟩
        · exact h x hx
      · intro x hx
        simp only [List.mem_singleton] at hx
        subst hx
        exact ⟨ha, ht⟩
  | DeleteBook id =>
    simp only [exec]
    exact ⟨fun b hb => h b (DeleteBook_memDB s id b hb), by simp⟩

theorem execAll_memDB_preserves (ops : List Op) (s : MemState)
    (h : ∀ b ∈ s.books, validBook b) :
    (∀ b ∈ (execAll memDB ops s).1.books, validBook b) ∧
    (∀ d ∈ (execAll memDB ops s).2, d.Author ≠ "" ∧ d.Title ≠ "") := by
  induction ops generalizing s with
  | nil => exact ⟨h, by simp [execAll]⟩
  | cons op ops ih =>
    obtain ⟨h1, h2⟩ := exec_memDB_preserves op s h
    obtain ⟨h3, h4⟩ := ih (exec memDB op s).1 h1
    refine ⟨h3, ?_⟩
    intro d hd
    simp only [execAll, List.mem_append] at hd
    rcases hd with hd | hd
    · exact h2 d hd
    · exact h4 d hd

/-- C11: starting from the empty in-memory gateway, after any sequence of
Book Service calls (`GetBooks`, `GetBook`, `AddBook`, `UpdateBook`,
`DeleteBook`, with arbitrary arguments, nil dtos included) every book the
gateway holds has a non-empty author, a non-empty title, a positive creator
identifier and a positive identifier, and every DTO returned by any call of the
sequence has a non-empty author and title. -/
theorem C11_data_model_invariant_reachable (ops : List Op) :
    (∀ b ∈ (execAll memDB ops memdb.empty).1.books,
      b.Author ≠ "" ∧ b.Title ≠ "" ∧ 0 < b.CreatedBy ∧ 0 < b.ID) ∧
    (∀ d ∈ (execAll memDB ops memdb.empty).2, d.Author ≠ "" ∧ d.Title ≠ "") :=
  execAll_memDB_preserves ops memdb.empty (by simp [memdb.empty])

end services

namespace crypto

set_option maxRecDepth 20000 in
/-- The four cases of `TestCrypto` over the engine with input limit 72 and salt
`salt`: each password is hashed with a nil error to a non-empty hash and
verifies against it, and `wrongPassword123@` is rejected with
`ErrInvalidCredentials`. -/
theorem TestCrypto_paddedEngine :
    ∀ p ∈ ["password123", "", "123",
        "averylongpasswordthatexceedsthelimitof72charactersandshouldcausethe"],
      (HashPassword (paddedEngine LongInput.refuse) "salt" p).2 = none ∧
      (HashPassword (paddedEngine LongInput.refuse) "salt" p).1 ≠ "" ∧
      CheckPassword (paddedEngine LongInput.refuse) p
        (HashPassword (paddedEngine LongInput.refuse) "salt" p).1 = none ∧
      CheckPassword (paddedEngine LongInput.refuse) "wrongPassword123@"
        (HashPassword (paddedEngine LongInput.refuse) "salt" p).1
        = some Error.ErrInvalidCredentials := by
  decide

set_option maxRecDepth 20000 in
/-- Over the engine that refuses long input, hashing the 73-character
`overLength` fails; over the one that truncates, it succeeds. -/
theorem HashPassword_overLength :
    (HashPassword (paddedEngine LongInput.refuse) "salt" overLength).2
      = some (Error.engine "password too long") ∧
    (HashPassword (paddedEngine LongInput.truncate) "salt" overLength).2 = none := by
  refine ⟨?_, ?_⟩ <;> decide

end crypto

namespace services

open models dtos database memdb

/-- A run of five calls over the in-memory gateway, starting empty: an add, a
rejected add, an update, a listing and a delete of a missing book. -/
theorem execAll_memDB_example :
    execAll memDB
        [Op.AddBook 7 4 (some ⟨"Lem", "Solaris"⟩), Op.AddBook 8 4 (some ⟨"", "Dune"⟩),
          Op.UpdateBook 1 (some ⟨9, "S. Lem", "Solaris", 0⟩), Op.GetBooks, Op.DeleteBook 2]
        memdb.empty
      = (⟨[⟨1, 4, 7, "S. Lem", "Solaris"⟩], 1⟩,
          [⟨1, "Lem", "Solaris", 7⟩, ⟨1, "S. Lem", "Solaris", 7⟩,
            ⟨1, "S. Lem", "Solaris", 7⟩]) := by
  decide

end services

end BookRESTAPI
